import Mathlib

/-!
PCM1690 ASoC codec driver: register-level model

A shallow embedding of `src/pcm1690.c`.  The driver talks to the chip only
through the Linux regmap layer (`regmap_write`, `regmap_update_bits`) with the
configuration `pcm1690_regmap` (8-bit registers, 8-bit values, register cache).
The register map is a total function from register numbers to bytes; the
private driver data `pcm1690_private` carries that map next to the three
`unsigned int` fields of the C structure.
-/

namespace PCM1690

/-! Section: Constants of the kernel headers used by the driver -/

/-- Kernel errno `EINVAL`. -/
def EINVAL : Int := 22

/-- Kernel errno `EIO`, returned by regmap for a register rejected by a filter. -/
def EIO : Int := 5

/-- Constant `SND_SOC_DAIFMT_I2S` of `include/sound/soc-dai.h`. -/
def SND_SOC_DAIFMT_I2S : Nat := 1

/-- Constant `SND_SOC_DAIFMT_RIGHT_J` of `include/sound/soc-dai.h`. -/
def SND_SOC_DAIFMT_RIGHT_J : Nat := 2

/-- Constant `SND_SOC_DAIFMT_LEFT_J` of `include/sound/soc-dai.h`. -/
def SND_SOC_DAIFMT_LEFT_J : Nat := 3

/-- Constant `SND_SOC_DAIFMT_DSP_A` of `include/sound/soc-dai.h`. -/
def SND_SOC_DAIFMT_DSP_A : Nat := 4

/-- Constant `SND_SOC_DAIFMT_FORMAT_MASK` of `include/sound/soc-dai.h`. -/
def SND_SOC_DAIFMT_FORMAT_MASK : Nat := 0x000f

/-- Constant `SND_SOC_DAIFMT_MASTER_MASK` of `include/sound/soc-dai.h`. -/
def SND_SOC_DAIFMT_MASTER_MASK : Nat := 0xf000

/-- Constant `SND_SOC_DAIFMT_CBS_CFS` of `include/sound/soc-dai.h`, that is `4 << 12`. -/
def SND_SOC_DAIFMT_CBS_CFS : Nat := 4 <<< 12

/-! Section: Register macros (`src/pcm1690.c`, lines 39-47) -/

def pcm1690_SOFT_MUTE_ALL : Nat := 0xff
def pcm1690_DEEMPH_RATE_MASK : Nat := 0x30
def pcm1690_DEEMPH_MASK : Nat := 0x30

/-- Macro `pcm1690_ATT_CONTROL(X)`: `(X >= 72 ? X : X + 71)`. -/
def pcm1690_ATT_CONTROL (X : Nat) : Nat := if X ≥ 72 then X else X + 71

def pcm1690_SOFT_MUTE : Nat := 0x44
def pcm1690_FMT_CONTROL : Nat := 0x41
def pcm1690_DEEMPH_CONTROL : Nat := 0x46
def pcm1690_ZERO_DETECT_STATUS : Nat := 0x45

/-! Section: The register map (`src/pcm1690.c`, lines 51-78 and 308-318) -/

/-- Table `pcm1690_reg_defaults`: pairs of register number and reset value. -/
def pcm1690_reg_defaults : List (Nat × Nat) :=
  [ (0x40, 0xc0), (0x41, 0x04), (0x42, 0x00), (0x43, 0x00), (0x44, 0x00),
    (0x46, 0x00),
    (0x48, 0xff), (0x49, 0xff), (0x4A, 0xff), (0x4B, 0xff),
    (0x4C, 0xff), (0x4D, 0xff), (0x4E, 0xff), (0x4F, 0xff) ]

/-- Function `pcm1690_accessible_reg`. -/
def pcm1690_accessible_reg (reg : Nat) : Bool :=
  (decide (reg ≤ 0x4F) && decide (reg ≥ 0x40)) && !(reg == 0x47)

/-- Function `pcm1690_writeable_reg`. -/
def pcm1690_writeable_reg (reg : Nat) : Bool :=
  pcm1690_accessible_reg reg && (reg != pcm1690_ZERO_DETECT_STATUS)

/-- Field `.max_register` of `pcm1690_regmap`. -/
def max_register : Nat := 0x4F

/-! ## The regmap layer, as configured by `pcm1690_regmap`

`val_bits = 8`: a register holds one byte.  The cache and the chip are kept
equal by the framework, so one map stands for both, and bus transfers are
taken to succeed. -/

/-- Contents of the register map: one byte per register number. -/
abbrev RegFile := Nat → Fin 256

/-- Framework test `regmap_writeable`: within `max_register` and accepted by
the `writeable_reg` callback. -/
def regmap_writeable (reg : Nat) : Bool :=
  decide (reg ≤ max_register) && pcm1690_writeable_reg reg

/-- Framework test `regmap_readable`: within `max_register` and accepted by
the `readable_reg` callback, which is `pcm1690_accessible_reg`. -/
def regmap_readable (reg : Nat) : Bool :=
  decide (reg ≤ max_register) && pcm1690_accessible_reg reg

/-- Complement `~m` of an `unsigned int`. -/
def not32 (m : Nat) : Nat := 0xFFFFFFFF ^^^ (m % 2 ^ 32)

/-- Framework call `regmap_read`: the register value, or `-EIO`. -/
def regmap_read (R : RegFile) (reg : Nat) : Except Int Nat :=
  if regmap_readable reg then .ok (R reg).val else .error (- EIO)

/-- The low `val_bits = 8` bits of a value, as stored in a register. -/
def byte (v : Nat) : Fin 256 := ⟨v % 256, Nat.mod_lt _ (by decide)⟩

/-- The register map `R` with register `reg` holding `v`. -/
def setReg (R : RegFile) (reg : Nat) (v : Fin 256) : RegFile :=
  fun r => if r = reg then v else R r

/-- Framework call `regmap_write`: `-EIO` for a register that is not
writeable, else the low `val_bits` of `val` are stored and `0` is returned. -/
def regmap_write (R : RegFile) (reg val : Nat) : Int × RegFile :=
  if regmap_writeable reg then (0, setReg R reg (byte val)) else (- EIO, R)

/-- Framework call `regmap_update_bits`: read `orig`, form
`tmp = (orig & ~mask) | (val & mask)` and write it when it differs. -/
def regmap_update_bits (R : RegFile) (reg mask val : Nat) : Int × RegFile :=
  match regmap_read R reg with
  | .error e => (e, R)
  | .ok orig =>
    let tmp := (orig &&& not32 mask) ||| (val &&& mask)
    if tmp ≠ orig then regmap_write R reg tmp else (0, R)

/-! Section: Driver state and operations -/

/-- Structure `pcm1690_private`; `regmap` is the content of the register map
behind the C pointer. -/
structure pcm1690_private where
  regmap : RegFile
  format : Nat
  deemph : Nat
  rate : Nat

/-- The private data `priv` after the register map behind `priv->regmap` has
become `R`; the three integer fields are untouched. -/
def withRegs (priv : pcm1690_private) (R : RegFile) : pcm1690_private :=
  { priv with regmap := R }

/-- The part of `snd_pcm_hw_params` the driver reads: `params_rate` and
`params_width`. -/
structure hw_params where
  rate : Nat
  width : Int

/-- Table `pcm1690_deemph`. -/
def pcm1690_deemph : List Nat := [44100, 48000, 32000]

/-- The `for` loop of `pcm1690_set_deemph` from index `i` on: the index of the
first entry equal to `rate`, or `-1` when the loop ends without a match. -/
def deemph_scan (rate : Nat) : List Nat → Nat → Int
  | [], _ => -1
  | x :: xs, i => if x = rate then (i : Int) else deemph_scan rate xs (i + 1)

/-- Conversion of an `int` argument to `unsigned int`. -/
def toU32 (v : Int) : Nat := (v % 2 ^ 32).toNat

/-- Function `pcm1690_set_deemph`. -/
def pcm1690_set_deemph (priv : pcm1690_private) : Int × pcm1690_private :=
  let val : Int :=
    if priv.deemph ≠ 0 then deemph_scan priv.rate pcm1690_deemph 0 else -1
  if val ≠ -1 then
    let r1 := regmap_update_bits priv.regmap pcm1690_DEEMPH_CONTROL
      pcm1690_DEEMPH_RATE_MASK (toU32 (val * 2 ^ 4))
    let r2 := regmap_update_bits r1.2 pcm1690_DEEMPH_CONTROL pcm1690_DEEMPH_MASK 1
    (r2.1, withRegs priv r2.2)
  else
    let r2 := regmap_update_bits priv.regmap pcm1690_DEEMPH_CONTROL pcm1690_DEEMPH_MASK 0
    (r2.1, withRegs priv r2.2)

/-- Function `pcm1690_put_deemph`; `v` is `ucontrol->value.integer.value[0]`. -/
def pcm1690_put_deemph (priv : pcm1690_private) (v : Int) : Int × pcm1690_private :=
  pcm1690_set_deemph { priv with deemph := toU32 v }

/-- Function `pcm1690_set_dai_fmt`. -/
def pcm1690_set_dai_fmt (priv : pcm1690_private) (format : Nat) : Int × pcm1690_private :=
  if format &&& SND_SOC_DAIFMT_MASTER_MASK ≠ SND_SOC_DAIFMT_CBS_CFS then
    (-EINVAL, priv)
  else
    (0, { priv with format := format })

/-- Function `pcm1690_digital_mute`. -/
def pcm1690_digital_mute (priv : pcm1690_private) (mute : Int) : Int × pcm1690_private :=
  let val : Nat := if mute ≠ 0 then pcm1690_SOFT_MUTE_ALL else 0
  let r := regmap_write priv.regmap pcm1690_SOFT_MUTE val
  (r.1, withRegs priv r.2)

/-- The nested `switch` of `pcm1690_hw_params`: the value of `val` on the paths
that reach `regmap_update_bits`, `none` on the three `return -EINVAL` paths.
The `switch` under `case SND_SOC_DAIFMT_I2S` has no label, so its body never
runs and `val` keeps its initial `0`. -/
def fmt_val (format : Nat) (width : Int) : Option Nat :=
  let f := format &&& SND_SOC_DAIFMT_FORMAT_MASK
  if f = SND_SOC_DAIFMT_I2S then some 0
  else if f = SND_SOC_DAIFMT_RIGHT_J then
    if width = 24 then some 0x02
    else if width = 16 then some 0x03
    else none
  else if f = SND_SOC_DAIFMT_LEFT_J then some 0x01
  else if f = SND_SOC_DAIFMT_DSP_A then
    if width = 24 then some 0x04 else none
  else none

/-- Function `pcm1690_hw_params`. -/
def pcm1690_hw_params (priv : pcm1690_private) (params : hw_params) :
    Int × pcm1690_private :=
  let priv1 := { priv with rate := params.rate }
  match fmt_val priv1.format params.width with
  | none => (-EINVAL, priv1)
  | some val =>
    let r := regmap_update_bits priv1.regmap pcm1690_FMT_CONTROL 0x0f val
    if r.1 < 0 then (r.1, withRegs priv1 r.2)
    else pcm1690_set_deemph (withRegs priv1 r.2)

/-- The register map right after `devm_regmap_init_i2c`: every register of
`pcm1690_reg_defaults` holds its default, the others read as zero. -/
def default_regs : RegFile := fun r =>
  match pcm1690_reg_defaults.lookup r with
  | some v => byte v
  | none => 0

/-- A register map with every register cleared. -/
def zero_regs : RegFile := fun _ => 0

/-- The register pairs of the four `SOC_DOUBLE_R_TLV` volume controls of
`pcm1690_controls`. -/
def pcm1690_controls : List (Nat × Nat) :=
  [ (pcm1690_ATT_CONTROL 1, pcm1690_ATT_CONTROL 2),
    (pcm1690_ATT_CONTROL 3, pcm1690_ATT_CONTROL 4),
    (pcm1690_ATT_CONTROL 5, pcm1690_ATT_CONTROL 6),
    (pcm1690_ATT_CONTROL 7, pcm1690_ATT_CONTROL 8) ]

/-- A register map with every bit of every register set. -/
def ones_regs : RegFile := fun _ => 0xff

/-- Private data after probe and `set_dai_fmt` with right-justified frames in
slave mode (`0x4002`), the de-emphasis switch on, last rate 44100. -/
def sample_priv : pcm1690_private :=
  { regmap := default_regs, format := 0x4002, deemph := 1, rate := 44100 }

/-! Section: Auxiliary facts about the regmap layer -/

theorem writeable_readable (reg : Nat) (h : regmap_writeable reg = true) :
    regmap_readable reg = true := by
  simp only [regmap_writeable, regmap_readable, pcm1690_writeable_reg,
    Bool.and_eq_true] at h ⊢
  exact ⟨h.1, h.2.1⟩

theorem byte_val (v : Fin 256) : byte v.val = v := by
  apply Fin.ext
  simp [byte, Nat.mod_eq_of_lt v.isLt]

theorem setReg_same (R : RegFile) (reg : Nat) (v : Fin 256) : setReg R reg v reg = v := by
  simp [setReg]

theorem setReg_other (R : RegFile) (reg r : Nat) (v : Fin 256) (h : r ≠ reg) :
    setReg R reg v r = R r := by
  simp [setReg, h]

theorem setReg_self (R : RegFile) (reg : Nat) : setReg R reg (R reg) = R := by
  funext r
  by_cases h : r = reg
  · subst h; simp [setReg]
  · simp [setReg, h]

theorem setReg_setReg (R : RegFile) (reg : Nat) (v w : Fin 256) :
    setReg (setReg R reg v) reg w = setReg R reg w := by
  funext r
  by_cases h : r = reg <;> simp [setReg, h]

/-- On a writeable register `regmap_update_bits` returns `0` and leaves the
map with that register holding `(orig & ~mask) | (val & mask)`, written or
already there. -/
theorem regmap_update_bits_ok (R : RegFile) (reg mask val : Nat)
    (hw : regmap_writeable reg = true) :
    regmap_update_bits R reg mask val =
      (0, setReg R reg (byte (((R reg).val &&& not32 mask) ||| (val &&& mask)))) := by
  have hr := writeable_readable reg hw
  simp only [regmap_update_bits, regmap_read, hr, if_true, regmap_write, hw]
  by_cases h : ((R reg).val &&& not32 mask) ||| (val &&& mask) = (R reg).val
  · simp only [h, ne_eq, not_true_eq_false, if_false, byte_val, setReg_self]
  · simp only [h, ne_eq, not_false_eq_true, if_true]

set_option maxRecDepth 100000 in
theorem deemph_field_bytes : ∀ x : Fin 256,
    (byte ((x.val &&& not32 0x30) ||| (0 &&& 0x30)) = byte (x.val &&& not32 0x30)) ∧
    (∀ w : Fin 3, byte (((byte ((x.val &&& not32 0x30) ||| ((16 * w.val) &&& 0x30))).val
        &&& not32 0x30) ||| (1 &&& 0x30)) = byte (x.val &&& not32 0x30)) ∧
    ((byte (x.val &&& not32 0x30)).val = x.val &&& 0xCF) ∧
    ((x.val &&& 0xCF) &&& 0x30 = 0) ∧
    ((x.val &&& 0xCF) &&& 0xCF = x.val &&& 0xCF) := by
  decide

theorem deemph_scan_cases (rate : Nat) :
    (deemph_scan rate pcm1690_deemph 0 = 0 ∧ rate = 44100) ∨
    (deemph_scan rate pcm1690_deemph 0 = 1 ∧ rate = 48000) ∨
    (deemph_scan rate pcm1690_deemph 0 = 2 ∧ rate = 32000) ∨
    (deemph_scan rate pcm1690_deemph 0 = -1 ∧
      rate ≠ 44100 ∧ rate ≠ 48000 ∧ rate ≠ 32000) := by
  simp only [deemph_scan, pcm1690_deemph]
  by_cases h0 : 44100 = rate
  · left; subst h0; simp
  · by_cases h1 : 48000 = rate
    · right; left; subst h1; simp
    · by_cases h2 : 32000 = rate
      · right; right; left; subst h2; simp
      · right; right; right
        simp only [h0, h1, h2, if_false, true_and]
        exact ⟨fun h => h0 h.symm, fun h => h1 h.symm, fun h => h2 h.symm⟩

/-- The whole effect of `pcm1690_set_deemph`: it returns `0` and register
`0x46` ends as its old value with bits 5:4 cleared, on every path. -/
theorem set_deemph_eq (priv : pcm1690_private) :
    pcm1690_set_deemph priv =
      (0, withRegs priv (setReg priv.regmap pcm1690_DEEMPH_CONTROL
              (byte ((priv.regmap pcm1690_DEEMPH_CONTROL).val &&& not32 0x30)))) := by
  have hw : regmap_writeable pcm1690_DEEMPH_CONTROL = true := by decide
  have hb := deemph_field_bytes (priv.regmap pcm1690_DEEMPH_CONTROL)
  have off : pcm1690_set_deemph priv = (0, withRegs priv
      (setReg priv.regmap pcm1690_DEEMPH_CONTROL
        (byte (((priv.regmap pcm1690_DEEMPH_CONTROL).val &&& not32 0x30) ||| (0 &&& 0x30)))))
      ∨ ∃ w : Fin 3, pcm1690_set_deemph priv = (0, withRegs priv
      (setReg priv.regmap pcm1690_DEEMPH_CONTROL
        (byte (((byte (((priv.regmap pcm1690_DEEMPH_CONTROL).val &&& not32 0x30) |||
          ((16 * w.val) &&& 0x30))).val &&& not32 0x30) ||| (1 &&& 0x30))))) := by
    by_cases hd : priv.deemph = 0
    · left
      simp only [pcm1690_set_deemph, hd, ne_eq, not_true_eq_false, if_false,
        regmap_update_bits_ok _ _ _ _ hw, pcm1690_DEEMPH_MASK]
    · rcases deemph_scan_cases priv.rate with h | h | h | h
      · right; refine ⟨0, ?_⟩
        simp only [pcm1690_set_deemph, hd, ne_eq, not_false_eq_true, if_true, h.1,
          regmap_update_bits_ok _ _ _ _ hw, pcm1690_DEEMPH_MASK, pcm1690_DEEMPH_RATE_MASK,
          setReg_setReg, setReg_same]
        rfl
      · right; refine ⟨1, ?_⟩
        simp only [pcm1690_set_deemph, hd, ne_eq, not_false_eq_true, if_true, h.1,
          regmap_update_bits_ok _ _ _ _ hw, pcm1690_DEEMPH_MASK, pcm1690_DEEMPH_RATE_MASK,
          setReg_setReg, setReg_same]
        rfl
      · right; refine ⟨2, ?_⟩
        simp only [pcm1690_set_deemph, hd, ne_eq, not_false_eq_true, if_true, h.1,
          regmap_update_bits_ok _ _ _ _ hw, pcm1690_DEEMPH_MASK, pcm1690_DEEMPH_RATE_MASK,
          setReg_setReg, setReg_same]
        rfl
      · left
        simp only [pcm1690_set_deemph, hd, ne_eq, not_false_eq_true, if_true, h.1,
          not_true_eq_false, if_false,
          regmap_update_bits_ok _ _ _ _ hw, pcm1690_DEEMPH_MASK]
  rcases off with h | ⟨w, h⟩
  · rw [h, hb.1]
  · rw [h, hb.2.1 w]

set_option maxRecDepth 100000 in
theorem fmt_field_bytes : ∀ x : Fin 256, ∀ c : Fin 5,
    ((byte ((x.val &&& not32 0x0f) ||| (c.val &&& 0x0f))).val &&& 0x0f = c.val) ∧
    ((byte ((x.val &&& not32 0x0f) ||| (c.val &&& 0x0f))).val &&& 0xf0 = x.val &&& 0xf0) ∧
    ((byte ((x.val &&& not32 0x0f) ||| (c.val &&& 0x0f))).val =
      (x.val &&& not32 0x0f) ||| c.val) := by
  decide

/-- The codes `fmt_val` can produce are the five of the table. -/
theorem fmt_val_lt (format : Nat) (width : Int) (val : Nat)
    (h : fmt_val format width = some val) : val < 5 := by
  simp only [fmt_val] at h
  split_ifs at h <;> simp only [Option.some.injEq, reduceCtorEq] at h <;> omega

/-- The path of `pcm1690_hw_params` that reaches the register writes. -/
theorem hw_params_some (priv : pcm1690_private) (params : hw_params) (val : Nat)
    (h : fmt_val priv.format params.width = some val) :
    pcm1690_hw_params priv params =
      (0, withRegs { priv with rate := params.rate }
        (setReg (setReg priv.regmap pcm1690_FMT_CONTROL
            (byte (((priv.regmap pcm1690_FMT_CONTROL).val &&& not32 0x0f) ||| (val &&& 0x0f))))
          pcm1690_DEEMPH_CONTROL
          (byte ((priv.regmap pcm1690_DEEMPH_CONTROL).val &&& not32 0x30)))) := by
  have hw : regmap_writeable pcm1690_FMT_CONTROL = true := by decide
  have hne : pcm1690_DEEMPH_CONTROL ≠ pcm1690_FMT_CONTROL := by decide
  simp only [pcm1690_hw_params, h, regmap_update_bits_ok _ _ _ _ hw, lt_self_iff_false,
    if_false, set_deemph_eq, withRegs, setReg_other _ _ _ _ hne]

/-- The three `return -EINVAL` paths of `pcm1690_hw_params`. -/
theorem hw_params_none (priv : pcm1690_private) (params : hw_params)
    (h : fmt_val priv.format params.width = none) :
    pcm1690_hw_params priv params = (-EINVAL, { priv with rate := params.rate }) := by
  simp only [pcm1690_hw_params, h]

/-! Section: Properties of the driver operations -/

/-- C1: when `pcm1690_hw_params` succeeds, the low four bits of the
format-control register `0x41` are the code of the fixed table (I2S -> 0,
left-justified -> 1, right-justified 24 bit -> 2, right-justified 16 bit -> 3,
DSP_A 24 bit -> 4), one of these five rows applies, the high four bits of
`0x41` are those from before the call, the register holds
`(old & ~0x0f) | code`, and `priv->rate` is the rate of the params. -/
theorem hw_params_format_code (priv : pcm1690_private) (params : hw_params)
    (h : (pcm1690_hw_params priv params).1 = 0) :
    (priv.format &&& SND_SOC_DAIFMT_FORMAT_MASK = SND_SOC_DAIFMT_I2S →
      ((pcm1690_hw_params priv params).2.regmap pcm1690_FMT_CONTROL).val &&& 0x0f = 0x0) ∧
    (priv.format &&& SND_SOC_DAIFMT_FORMAT_MASK = SND_SOC_DAIFMT_LEFT_J →
      ((pcm1690_hw_params priv params).2.regmap pcm1690_FMT_CONTROL).val &&& 0x0f = 0x1) ∧
    (priv.format &&& SND_SOC_DAIFMT_FORMAT_MASK = SND_SOC_DAIFMT_RIGHT_J →
      params.width = 24 →
      ((pcm1690_hw_params priv params).2.regmap pcm1690_FMT_CONTROL).val &&& 0x0f = 0x2) ∧
    (priv.format &&& SND_SOC_DAIFMT_FORMAT_MASK = SND_SOC_DAIFMT_RIGHT_J →
      params.width = 16 →
      ((pcm1690_hw_params priv params).2.regmap pcm1690_FMT_CONTROL).val &&& 0x0f = 0x3) ∧
    (priv.format &&& SND_SOC_DAIFMT_FORMAT_MASK = SND_SOC_DAIFMT_DSP_A →
      params.width = 24 →
      ((pcm1690_hw_params priv params).2.regmap pcm1690_FMT_CONTROL).val &&& 0x0f = 0x4) ∧
    (priv.format &&& SND_SOC_DAIFMT_FORMAT_MASK = SND_SOC_DAIFMT_I2S ∨
      priv.format &&& SND_SOC_DAIFMT_FORMAT_MASK = SND_SOC_DAIFMT_LEFT_J ∨
      (priv.format &&& SND_SOC_DAIFMT_FORMAT_MASK = SND_SOC_DAIFMT_RIGHT_J ∧
        (params.width = 24 ∨ params.width = 16)) ∨
      (priv.format &&& SND_SOC_DAIFMT_FORMAT_MASK = SND_SOC_DAIFMT_DSP_A ∧
        params.width = 24)) ∧
    (((pcm1690_hw_params priv params).2.regmap pcm1690_FMT_CONTROL).val &&& 0xf0 =
      (priv.regmap pcm1690_FMT_CONTROL).val &&& 0xf0) ∧
    (((pcm1690_hw_params priv params).2.regmap pcm1690_FMT_CONTROL).val =
      ((priv.regmap pcm1690_FMT_CONTROL).val &&& not32 0x0f) |||
        (((pcm1690_hw_params priv params).2.regmap pcm1690_FMT_CONTROL).val &&& 0x0f)) ∧
    (pcm1690_hw_params priv params).2.rate = params.rate := by
  cases hv : fmt_val priv.format params.width with
  | none =>
    rw [hw_params_none priv params hv] at h
    simp [EINVAL] at h
  | some val =>
    have hlt := fmt_val_lt _ _ _ hv
    have hne : pcm1690_FMT_CONTROL ≠ pcm1690_DEEMPH_CONTROL := by decide
    have hb := fmt_field_bytes (priv.regmap pcm1690_FMT_CONTROL) ⟨val, hlt⟩
    have hreg : ((pcm1690_hw_params priv params).2.regmap pcm1690_FMT_CONTROL) =
        byte (((priv.regmap pcm1690_FMT_CONTROL).val &&& not32 0x0f) ||| (val &&& 0x0f)) := by
      rw [hw_params_some priv params val hv]
      simp only [withRegs, setReg_other _ _ _ _ hne, setReg_same]
    have hrate : (pcm1690_hw_params priv params).2.rate = params.rate := by
      rw [hw_params_some priv params val hv]
      rfl
    rw [hreg]
    refine ⟨?_, ?_, ?_, ?_, ?_, ?_, hb.2.1, by rw [hb.1]; exact hb.2.2, hrate⟩
    · intro hf
      rw [hb.1]
      simp only [fmt_val, hf, if_true, Option.some.injEq] at hv
      exact hv.symm
    · intro hf
      rw [hb.1]
      simp only [fmt_val, hf, SND_SOC_DAIFMT_I2S, SND_SOC_DAIFMT_LEFT_J,
        SND_SOC_DAIFMT_RIGHT_J] at hv
      simp at hv
      exact hv.symm
    · intro hf hw
      rw [hb.1]
      simp only [fmt_val, hf, hw, SND_SOC_DAIFMT_I2S, SND_SOC_DAIFMT_RIGHT_J] at hv
      simp at hv
      exact hv.symm
    · intro hf hw
      rw [hb.1]
      simp only [fmt_val, hf, hw, SND_SOC_DAIFMT_I2S, SND_SOC_DAIFMT_RIGHT_J] at hv
      simp at hv
      exact hv.symm
    · intro hf hw
      rw [hb.1]
      simp only [fmt_val, hf, hw, SND_SOC_DAIFMT_I2S, SND_SOC_DAIFMT_RIGHT_J,
        SND_SOC_DAIFMT_LEFT_J, SND_SOC_DAIFMT_DSP_A] at hv
      simp at hv
      exact hv.symm
    · simp only [fmt_val] at hv
      split_ifs at hv with h1 h2 h3 h4 h5 h6 h7 <;> simp_all

/-- C1 at a concrete input: right-justified 16-bit frames on the default
register map. -/
theorem hw_params_format_code_witness :
    (pcm1690_hw_params sample_priv ⟨48000, 16⟩).1 = 0 ∧
    ((pcm1690_hw_params sample_priv ⟨48000, 16⟩).2.regmap pcm1690_FMT_CONTROL).val
      &&& 0x0f = 0x3 ∧
    (pcm1690_hw_params sample_priv ⟨48000, 16⟩).2.rate = 48000 :=
  ⟨by decide,
   (hw_params_format_code sample_priv ⟨48000, 16⟩ (by decide)).2.2.2.1 (by decide) (by decide),
   (hw_params_format_code sample_priv ⟨48000, 16⟩ (by decide)).2.2.2.2.2.2.2.2⟩

/-- The `-EINVAL` paths of the nested `switch`, spelled out. -/
theorem fmt_val_none_iff (format : Nat) (width : Int) :
    fmt_val format width = none ↔
      ((format &&& SND_SOC_DAIFMT_FORMAT_MASK ≠ SND_SOC_DAIFMT_I2S ∧
        format &&& SND_SOC_DAIFMT_FORMAT_MASK ≠ SND_SOC_DAIFMT_RIGHT_J ∧
        format &&& SND_SOC_DAIFMT_FORMAT_MASK ≠ SND_SOC_DAIFMT_LEFT_J ∧
        format &&& SND_SOC_DAIFMT_FORMAT_MASK ≠ SND_SOC_DAIFMT_DSP_A) ∨
       (format &&& SND_SOC_DAIFMT_FORMAT_MASK = SND_SOC_DAIFMT_RIGHT_J ∧
        width ≠ 16 ∧ width ≠ 24) ∨
       (format &&& SND_SOC_DAIFMT_FORMAT_MASK = SND_SOC_DAIFMT_DSP_A ∧ width ≠ 24)) := by
  simp only [fmt_val, SND_SOC_DAIFMT_I2S, SND_SOC_DAIFMT_RIGHT_J, SND_SOC_DAIFMT_LEFT_J,
    SND_SOC_DAIFMT_DSP_A]
  generalize format &&& SND_SOC_DAIFMT_FORMAT_MASK = f
  split_ifs <;> simp_all

/-- C2: `pcm1690_hw_params` returns `-EINVAL` exactly when the frame format is
none of I2S, RIGHT_J, LEFT_J, DSP_A, or it is RIGHT_J with a width other than
16 and 24, or DSP_A with a width other than 24; in every other case it returns
`0`; and when it returns `-EINVAL` every register holds its previous value. -/
theorem hw_params_einval_iff (priv : pcm1690_private) (params : hw_params) :
    ((pcm1690_hw_params priv params).1 = -EINVAL ↔
      ((priv.format &&& SND_SOC_DAIFMT_FORMAT_MASK ≠ SND_SOC_DAIFMT_I2S ∧
        priv.format &&& SND_SOC_DAIFMT_FORMAT_MASK ≠ SND_SOC_DAIFMT_RIGHT_J ∧
        priv.format &&& SND_SOC_DAIFMT_FORMAT_MASK ≠ SND_SOC_DAIFMT_LEFT_J ∧
        priv.format &&& SND_SOC_DAIFMT_FORMAT_MASK ≠ SND_SOC_DAIFMT_DSP_A) ∨
       (priv.format &&& SND_SOC_DAIFMT_FORMAT_MASK = SND_SOC_DAIFMT_RIGHT_J ∧
        params.width ≠ 16 ∧ params.width ≠ 24) ∨
       (priv.format &&& SND_SOC_DAIFMT_FORMAT_MASK = SND_SOC_DAIFMT_DSP_A ∧
        params.width ≠ 24))) ∧
    ((pcm1690_hw_params priv params).1 ≠ -EINVAL →
      (pcm1690_hw_params priv params).1 = 0) ∧
    ((pcm1690_hw_params priv params).1 = -EINVAL →
      ∀ r : Nat, (pcm1690_hw_params priv params).2.regmap r = priv.regmap r) := by
  rw [← fmt_val_none_iff]
  cases hv : fmt_val priv.format params.width with
  | none =>
    rw [hw_params_none priv params hv]
    simp
  | some val =>
    rw [hw_params_some priv params val hv]
    simp [EINVAL]

/-- C2 at concrete inputs: DSP_A frames of 16 bits are refused and leave the
format register at its default, right-justified frames of 16 bits are
accepted. -/
theorem hw_params_einval_iff_witness :
    (pcm1690_hw_params { sample_priv with format := 0x4004 } ⟨48000, 16⟩).1 = -EINVAL ∧
    (pcm1690_hw_params { sample_priv with format := 0x4004 } ⟨48000, 16⟩).2.regmap 0x41
      = sample_priv.regmap 0x41 ∧
    (pcm1690_hw_params sample_priv ⟨48000, 16⟩).1 = 0 :=
  ⟨by decide,
   (hw_params_einval_iff { sample_priv with format := 0x4004 } ⟨48000, 16⟩).2.2
     (by decide) 0x41,
   (hw_params_einval_iff sample_priv ⟨48000, 16⟩).2.1 (by decide)⟩

/-- C3: the PCM1690 can only be slave to all clocks.  `pcm1690_set_dai_fmt`
returns `-EINVAL` and keeps `priv->format` when the master field of the format
word is not `SND_SOC_DAIFMT_CBS_CFS`, and otherwise returns `0` and stores
exactly the format word; in both cases the register map, `deemph` and `rate`
stay as they were. -/
theorem set_dai_fmt_slave_only (priv : pcm1690_private) (f : Nat) :
    (f &&& SND_SOC_DAIFMT_MASTER_MASK ≠ SND_SOC_DAIFMT_CBS_CFS →
      (pcm1690_set_dai_fmt priv f).1 = -EINVAL ∧
      (pcm1690_set_dai_fmt priv f).2.format = priv.format) ∧
    (f &&& SND_SOC_DAIFMT_MASTER_MASK = SND_SOC_DAIFMT_CBS_CFS →
      (pcm1690_set_dai_fmt priv f).1 = 0 ∧
      (pcm1690_set_dai_fmt priv f).2.format = f) ∧
    (pcm1690_set_dai_fmt priv f).2.regmap = priv.regmap ∧
    (pcm1690_set_dai_fmt priv f).2.deemph = priv.deemph ∧
    (pcm1690_set_dai_fmt priv f).2.rate = priv.rate := by
  by_cases h : f &&& SND_SOC_DAIFMT_MASTER_MASK = SND_SOC_DAIFMT_CBS_CFS
  · simp [pcm1690_set_dai_fmt, h]
  · simp [pcm1690_set_dai_fmt, h]

/-- C3 at concrete inputs: a codec-master format word (`0x1001`) is refused, a
codec-slave I2S word (`0x4001`) is stored. -/
theorem set_dai_fmt_slave_only_witness :
    ((pcm1690_set_dai_fmt sample_priv 0x1001).1 = -EINVAL ∧
      (pcm1690_set_dai_fmt sample_priv 0x1001).2.format = 0x4002) ∧
    ((pcm1690_set_dai_fmt sample_priv 0x4001).1 = 0 ∧
      (pcm1690_set_dai_fmt sample_priv 0x4001).2.format = 0x4001) :=
  ⟨(set_dai_fmt_slave_only sample_priv 0x1001).1 (by decide),
   (set_dai_fmt_slave_only sample_priv 0x4001).2.1 (by decide)⟩

/-- The whole effect of `pcm1690_digital_mute`: one write to register `0x44`. -/
theorem digital_mute_eq (priv : pcm1690_private) (m : Int) :
    pcm1690_digital_mute priv m =
      (0, withRegs priv (setReg priv.regmap pcm1690_SOFT_MUTE
        (byte (if m ≠ 0 then pcm1690_SOFT_MUTE_ALL else 0)))) := by
  have hw : regmap_writeable pcm1690_SOFT_MUTE = true := by decide
  simp only [pcm1690_digital_mute, regmap_write, hw, if_true]

/-- C4 as stated fails: muting a chip whose attenuation registers hold `0x00`
leaves channel register `0x48` at `0x00`, not `0xFF`, and un-muting the chip
in its default state leaves `0x48` at `0xFF`, not `0x00`. -/
theorem digital_mute_att_counterexample :
    ((pcm1690_digital_mute (withRegs sample_priv zero_regs) 1).2.regmap
        (pcm1690_ATT_CONTROL 1)).val = 0x00 ∧
    ((pcm1690_digital_mute (withRegs sample_priv zero_regs) 1).2.regmap
        (pcm1690_ATT_CONTROL 1)).val ≠ 0xFF ∧
    ((pcm1690_digital_mute sample_priv 0).2.regmap (pcm1690_ATT_CONTROL 1)).val = 0xFF ∧
    ((pcm1690_digital_mute sample_priv 0).2.regmap (pcm1690_ATT_CONTROL 1)).val ≠ 0x00 := by
  decide

/-- C4, amended: `pcm1690_digital_mute` returns `0` and writes `0xFF` on mute,
`0x00` on un-mute, to the soft-mute control register `0x44`, whose eight bits
are the mute bits of the eight channels; the eight per-channel registers
`0x48..0x4F` keep the values they had. -/
theorem digital_mute_soft_mute_reg (priv : pcm1690_private) (m : Int) :
    (pcm1690_digital_mute priv m).1 = 0 ∧
    (m ≠ 0 → ((pcm1690_digital_mute priv m).2.regmap pcm1690_SOFT_MUTE).val = 0xFF) ∧
    (m = 0 → ((pcm1690_digital_mute priv m).2.regmap pcm1690_SOFT_MUTE).val = 0x00) ∧
    (∀ X : Nat, 1 ≤ X → X ≤ 8 →
      (pcm1690_digital_mute priv m).2.regmap (pcm1690_ATT_CONTROL X) =
        priv.regmap (pcm1690_ATT_CONTROL X)) := by
  rw [digital_mute_eq]
  refine ⟨rfl, ?_, ?_, ?_⟩
  · intro hm
    simp only [withRegs, setReg_same, hm, ne_eq, not_false_eq_true, if_true]
    decide
  · intro hm
    simp only [withRegs, setReg_same, hm, ne_eq, not_true_eq_false, if_false]
    decide
  · intro X h1 h8
    have hne : pcm1690_ATT_CONTROL X ≠ pcm1690_SOFT_MUTE := by
      simp only [pcm1690_ATT_CONTROL, pcm1690_SOFT_MUTE]
      split_ifs <;> omega
    simp only [withRegs, setReg_other _ _ _ _ hne]

/-- C4, amended, at concrete inputs: mute on the default register map. -/
theorem digital_mute_soft_mute_reg_witness :
    ((pcm1690_digital_mute sample_priv 1).2.regmap pcm1690_SOFT_MUTE).val = 0xFF ∧
    (pcm1690_digital_mute sample_priv 1).2.regmap (pcm1690_ATT_CONTROL 3) =
      sample_priv.regmap (pcm1690_ATT_CONTROL 3) :=
  ⟨(digital_mute_soft_mute_reg sample_priv 1).2.1 (by decide),
   (digital_mute_soft_mute_reg sample_priv 1).2.2.2 3 (by decide) (by decide)⟩

/-- C5 fails on the code: with the de-emphasis switch on and the rate 48000
(entry 1 of `pcm1690_deemph`) the first `regmap_update_bits` does put the code
`1 << 4` into bits 5:4 of register `0x46`, but the second one, with the same
mask `0x30` and the value `1`, clears the field again, so `pcm1690_set_deemph`
ends with `reg[0x46] & 0x30 == 0`, not `0x10`; the same at rate 32000. -/
theorem set_deemph_rate_code_lost :
    deemph_scan 48000 pcm1690_deemph 0 = 1 ∧
    ((regmap_update_bits default_regs pcm1690_DEEMPH_CONTROL pcm1690_DEEMPH_RATE_MASK
        (toU32 (1 * 2 ^ 4))).2 pcm1690_DEEMPH_CONTROL).val &&& 0x30 = 1 <<< 4 ∧
    ((pcm1690_set_deemph { sample_priv with rate := 48000 }).2.regmap
        pcm1690_DEEMPH_CONTROL).val &&& 0x30 = 0 ∧
    ((pcm1690_set_deemph { sample_priv with rate := 48000 }).2.regmap
        pcm1690_DEEMPH_CONTROL).val &&& 0x30 ≠ 1 <<< 4 ∧
    ((pcm1690_set_deemph { sample_priv with rate := 32000 }).2.regmap
        pcm1690_DEEMPH_CONTROL).val &&& 0x30 ≠ 2 <<< 4 := by
  decide

/-- C6: with the de-emphasis switch off, or a rate that is none of 44100, 48000
and 32000, `pcm1690_set_deemph` returns `0`, clears bits 5:4 of register
`0x46`, keeps its other six bits and every other register, and keeps
`priv->format`, `priv->deemph` and `priv->rate`. -/
theorem set_deemph_disable (priv : pcm1690_private)
    (_h : priv.deemph = 0 ∨
      (priv.rate ≠ 44100 ∧ priv.rate ≠ 48000 ∧ priv.rate ≠ 32000)) :
    (pcm1690_set_deemph priv).1 = 0 ∧
    ((pcm1690_set_deemph priv).2.regmap pcm1690_DEEMPH_CONTROL).val &&& 0x30 = 0 ∧
    ((pcm1690_set_deemph priv).2.regmap pcm1690_DEEMPH_CONTROL).val &&& 0xCF =
      (priv.regmap pcm1690_DEEMPH_CONTROL).val &&& 0xCF ∧
    (∀ r : Nat, r ≠ pcm1690_DEEMPH_CONTROL →
      (pcm1690_set_deemph priv).2.regmap r = priv.regmap r) ∧
    (pcm1690_set_deemph priv).2.format = priv.format ∧
    (pcm1690_set_deemph priv).2.deemph = priv.deemph ∧
    (pcm1690_set_deemph priv).2.rate = priv.rate := by
  have hb := deemph_field_bytes (priv.regmap pcm1690_DEEMPH_CONTROL)
  rw [set_deemph_eq]
  refine ⟨rfl, ?_, ?_, ?_, rfl, rfl, rfl⟩
  · simp only [withRegs, setReg_same, hb.2.2.1, hb.2.2.2.1]
  · simp only [withRegs, setReg_same, hb.2.2.1, hb.2.2.2.2]
  · intro r hr
    simp only [withRegs, setReg_other _ _ _ _ hr]

/-- C6 at a concrete input: the switch is on, the rate is 96000, and every bit
of every register is set before the call. -/
theorem set_deemph_disable_witness :
    ((pcm1690_set_deemph ⟨ones_regs, 0x4001, 1, 96000⟩).2.regmap
        pcm1690_DEEMPH_CONTROL).val &&& 0x30 = 0 ∧
    ((pcm1690_set_deemph ⟨ones_regs, 0x4001, 1, 96000⟩).2.regmap
        pcm1690_DEEMPH_CONTROL).val &&& 0xCF = 0xCF :=
  ⟨(set_deemph_disable ⟨ones_regs, 0x4001, 1, 96000⟩ (Or.inr (by decide))).2.1,
   (set_deemph_disable ⟨ones_regs, 0x4001, 1, 96000⟩ (Or.inr (by decide))).2.2.1⟩

/-- The register filters and the keys of the defaults table on the register
numbers up to `max_register`, by enumeration. -/
theorem regmap_table_below : ∀ r : Fin 80,
    (pcm1690_accessible_reg r.val = true ↔ (0x40 ≤ r.val ∧ r.val ≤ 0x4F ∧ r.val ≠ 0x47)) ∧
    (pcm1690_writeable_reg r.val = true ↔
      (pcm1690_accessible_reg r.val = true ∧ r.val ≠ 0x45)) ∧
    ((pcm1690_reg_defaults.map Prod.fst).count r.val =
      if pcm1690_writeable_reg r.val = true then 1 else 0) := by
  decide

/-- Above `max_register` no register is accessible and the defaults table has
no entry. -/
theorem regmap_table_above (r : Nat) (h : 80 ≤ r) :
    pcm1690_accessible_reg r = false ∧ pcm1690_writeable_reg r = false ∧
    (pcm1690_reg_defaults.map Prod.fst).count r = 0 := by
  have ha : pcm1690_accessible_reg r = false := by
    simp only [pcm1690_accessible_reg, Bool.and_eq_false_imp, Bool.and_eq_true,
      decide_eq_true_eq]
    intro h1
    omega
  refine ⟨ha, by simp [pcm1690_writeable_reg, ha], ?_⟩
  rw [List.count_eq_zero]
  simp only [pcm1690_reg_defaults, List.map_cons, List.map_nil, List.mem_cons,
    List.mem_singleton, List.not_mem_nil, or_false]
  omega

/-- C7: the fixed register map is consistent.  A register is accessible iff it
lies in `0x40..0x4F` and is not `0x47`; it is writeable iff it is accessible
and not `0x45`; `pcm1690_reg_defaults` has 14 entries with pairwise distinct
keys, exactly one for each writeable register and none for any other, and
every key is within `max_register`. -/
theorem regmap_consistent :
    (∀ r : Nat, pcm1690_accessible_reg r = true ↔ (0x40 ≤ r ∧ r ≤ 0x4F ∧ r ≠ 0x47)) ∧
    (∀ r : Nat, pcm1690_writeable_reg r = true ↔
      (pcm1690_accessible_reg r = true ∧ r ≠ 0x45)) ∧
    pcm1690_reg_defaults.length = 14 ∧
    (pcm1690_reg_defaults.map Prod.fst).Nodup ∧
    (∀ r : Nat, (pcm1690_reg_defaults.map Prod.fst).count r =
      if pcm1690_writeable_reg r = true then 1 else 0) ∧
    (∀ r : Nat, r ∈ pcm1690_reg_defaults.map Prod.fst ↔ pcm1690_writeable_reg r = true) ∧
    (∀ r : Nat, r ∈ pcm1690_reg_defaults.map Prod.fst → r ≤ max_register) := by
  have hcount : ∀ r : Nat, (pcm1690_reg_defaults.map Prod.fst).count r =
      if pcm1690_writeable_reg r = true then 1 else 0 := by
    intro r
    by_cases h : r < 80
    · exact (regmap_table_below ⟨r, h⟩).2.2
    · have ha := regmap_table_above r (by omega)
      simp [ha.2.1, ha.2.2]
  have hmem : ∀ r : Nat, r ∈ pcm1690_reg_defaults.map Prod.fst ↔
      pcm1690_writeable_reg r = true := by
    intro r
    rw [← List.count_pos_iff, hcount r]
    by_cases hw : pcm1690_writeable_reg r = true <;> simp [hw]
  refine ⟨?_, ?_, rfl, by decide, hcount, hmem, ?_⟩
  · intro r
    by_cases h : r < 80
    · exact (regmap_table_below ⟨r, h⟩).1
    · have ha := regmap_table_above r (by omega)
      simp only [ha.1, Bool.false_eq_true, false_iff, not_and]
      omega
  · intro r
    by_cases h : r < 80
    · exact (regmap_table_below ⟨r, h⟩).2.1
    · have ha := regmap_table_above r (by omega)
      simp [ha.1, ha.2.1]
  · intro r hr
    have hw := (hmem r).1 hr
    by_cases h : r < 80
    · have := (regmap_table_below ⟨r, h⟩).1
      have h2 := (regmap_table_below ⟨r, h⟩).2.1
      have h3 := (this.1 (h2.1 hw).1).2.1
      exact h3
    · have ha := regmap_table_above r (by omega)
      rw [ha.2.1] at hw
      exact absurd hw (by decide)

/-- C8: `pcm1690_digital_mute` changes only the soft-mute control register.
After the call register `0x44` holds `0xFF` if `m != 0` and `0x00` if `m == 0`,
whatever it held before; every other register and `priv->format`,
`priv->deemph`, `priv->rate` are as before; and a second call with the same
`m` gives the state of the first. -/
theorem digital_mute_frame (priv : pcm1690_private) (m : Int) :
    ((pcm1690_digital_mute priv m).2.regmap pcm1690_SOFT_MUTE).val =
      (if m ≠ 0 then 0xFF else 0x00) ∧
    (∀ r : Nat, r ≠ pcm1690_SOFT_MUTE →
      (pcm1690_digital_mute priv m).2.regmap r = priv.regmap r) ∧
    (pcm1690_digital_mute priv m).2.format = priv.format ∧
    (pcm1690_digital_mute priv m).2.deemph = priv.deemph ∧
    (pcm1690_digital_mute priv m).2.rate = priv.rate ∧
    pcm1690_digital_mute (pcm1690_digital_mute priv m).2 m = pcm1690_digital_mute priv m := by
  rw [digital_mute_eq]
  refine ⟨?_, ?_, rfl, rfl, rfl, ?_⟩
  · simp only [withRegs, setReg_same]
    by_cases hm : m = 0
    · simp only [hm, ne_eq, not_true_eq_false, if_false]
      decide
    · simp only [hm, ne_eq, not_false_eq_true, if_true]
      decide
  · intro r hr
    simp only [withRegs, setReg_other _ _ _ _ hr]
  · rw [digital_mute_eq]
    simp only [withRegs, setReg_setReg]

/-- C8 at a concrete input: muting when every bit of every register is set,
then un-muting. -/
theorem digital_mute_frame_witness :
    ((pcm1690_digital_mute (withRegs sample_priv ones_regs) 0).2.regmap 0x44).val = 0x00 ∧
    (pcm1690_digital_mute (withRegs sample_priv ones_regs) 0).2.regmap 0x41 =
      (withRegs sample_priv ones_regs).regmap 0x41 :=
  ⟨(digital_mute_frame (withRegs sample_priv ones_regs) 0).1,
   (digital_mute_frame (withRegs sample_priv ones_regs) 0).2.1 0x41 (by decide)⟩

/-- C9: every register the operations and the mixer controls address is
writeable, for the `writeable_reg` callback and for the framework test
built on it: `0x41`, `0x44`, `0x46` and `pcm1690_ATT_CONTROL(X)` for every
channel `X` in `1..8`, hence both registers of every volume control;
`pcm1690_ATT_CONTROL` is `X + 71` on `1..8`, injective there and onto
`0x48..0x4F`, and the identity on every `X >= 72`. -/
theorem addressed_regs_writeable :
    (pcm1690_writeable_reg pcm1690_FMT_CONTROL = true ∧
      pcm1690_writeable_reg pcm1690_SOFT_MUTE = true ∧
      pcm1690_writeable_reg pcm1690_DEEMPH_CONTROL = true) ∧
    (regmap_writeable pcm1690_FMT_CONTROL = true ∧
      regmap_writeable pcm1690_SOFT_MUTE = true ∧
      regmap_writeable pcm1690_DEEMPH_CONTROL = true) ∧
    (∀ X : Nat, 1 ≤ X → X ≤ 8 →
      pcm1690_writeable_reg (pcm1690_ATT_CONTROL X) = true ∧
      regmap_writeable (pcm1690_ATT_CONTROL X) = true ∧
      pcm1690_ATT_CONTROL X = X + 71 ∧
      0x48 ≤ pcm1690_ATT_CONTROL X ∧ pcm1690_ATT_CONTROL X ≤ 0x4F) ∧
    (∀ c ∈ pcm1690_controls,
      pcm1690_writeable_reg c.1 = true ∧ pcm1690_writeable_reg c.2 = true) ∧
    (∀ X Y : Nat, 1 ≤ X → X ≤ 8 → 1 ≤ Y → Y ≤ 8 →
      pcm1690_ATT_CONTROL X = pcm1690_ATT_CONTROL Y → X = Y) ∧
    (∀ r : Nat, 0x48 ≤ r → r ≤ 0x4F →
      ∃ X : Nat, 1 ≤ X ∧ X ≤ 8 ∧ pcm1690_ATT_CONTROL X = r) ∧
    (∀ X : Nat, 72 ≤ X → pcm1690_ATT_CONTROL X = X) := by
  have hatt : ∀ X : Nat, X ≤ 8 → pcm1690_ATT_CONTROL X = X + 71 := by
    intro X h8
    simp only [pcm1690_ATT_CONTROL]
    split_ifs <;> omega
  refine ⟨by decide, by decide, ?_, by decide, ?_, ?_, ?_⟩
  · intro X h1 h8
    rw [hatt X h8]
    refine ⟨?_, ?_, rfl, by omega, by omega⟩
    · interval_cases X <;> decide
    · interval_cases X <;> decide
  · intro X Y _ hX _ hY h
    rw [hatt X hX, hatt Y hY] at h
    omega
  · intro r h1 h2
    refine ⟨r - 71, by omega, by omega, ?_⟩
    rw [hatt (r - 71) (by omega)]
    omega
  · intro X h
    simp only [pcm1690_ATT_CONTROL]
    split_ifs <;> omega

/-- C9 at concrete inputs: channel 8 is register `0x4F` and writeable, and
register `0x48` is channel 1. -/
theorem addressed_regs_writeable_witness :
    (pcm1690_writeable_reg (pcm1690_ATT_CONTROL 8) = true ∧
      regmap_writeable (pcm1690_ATT_CONTROL 8) = true ∧
      pcm1690_ATT_CONTROL 8 = 8 + 71 ∧
      0x48 ≤ pcm1690_ATT_CONTROL 8 ∧ pcm1690_ATT_CONTROL 8 ≤ 0x4F) ∧
    (∃ X : Nat, 1 ≤ X ∧ X ≤ 8 ∧ pcm1690_ATT_CONTROL X = 0x48) :=
  ⟨addressed_regs_writeable.2.2.1 8 (by decide) (by decide),
   addressed_regs_writeable.2.2.2.2.2.1 0x48 (by decide) (by decide)⟩

/-- C10: the register map `pcm1690_set_deemph` leaves does not depend on the
de-emphasis switch or the sample rate.  From a register map `R`, any two
private states give the same map, namely `R` with register `0x46` replaced by
`R[0x46] & ~0x30`, because `1 & 0x30 == 0`; so `pcm1690_put_deemph` with `1`
and with `0` leave identical register contents at every rate. -/
theorem set_deemph_regs_independent (R : RegFile)
    (format1 deemph1 rate1 format2 deemph2 rate2 : Nat) :
    (pcm1690_set_deemph ⟨R, format1, deemph1, rate1⟩).2.regmap =
      (pcm1690_set_deemph ⟨R, format2, deemph2, rate2⟩).2.regmap ∧
    (pcm1690_set_deemph ⟨R, format1, deemph1, rate1⟩).2.regmap =
      setReg R pcm1690_DEEMPH_CONTROL
        (byte ((R pcm1690_DEEMPH_CONTROL).val &&& not32 pcm1690_DEEMPH_MASK)) ∧
    ((pcm1690_set_deemph ⟨R, format1, deemph1, rate1⟩).2.regmap
        pcm1690_DEEMPH_CONTROL).val = (R pcm1690_DEEMPH_CONTROL).val &&& 0xCF ∧
    1 &&& pcm1690_DEEMPH_MASK = 0 ∧
    (pcm1690_put_deemph ⟨R, format1, deemph1, rate1⟩ 1).2.regmap =
      (pcm1690_put_deemph ⟨R, format1, deemph1, rate1⟩ 0).2.regmap := by
  have hb := deemph_field_bytes (R pcm1690_DEEMPH_CONTROL)
  simp only [pcm1690_put_deemph, set_deemph_eq, withRegs, setReg_same, hb.2.2.1,
    pcm1690_DEEMPH_MASK, true_and]
  decide

/-- C10 at a concrete input: from a register map with every bit set, switch
on at 48000 and switch off at 8000 both give `0xCF` in `0x46`. -/
theorem set_deemph_regs_independent_witness :
    ((pcm1690_set_deemph ⟨ones_regs, 0x4001, 1, 48000⟩).2.regmap 0x46).val = 0xCF ∧
    (pcm1690_set_deemph ⟨ones_regs, 0x4001, 1, 48000⟩).2.regmap =
      (pcm1690_set_deemph ⟨ones_regs, 0x4001, 0, 8000⟩).2.regmap :=
  ⟨(set_deemph_regs_independent ones_regs 0x4001 1 48000 0x4001 0 8000).2.2.1,
   (set_deemph_regs_independent ones_regs 0x4001 1 48000 0x4001 0 8000).1⟩

end PCM1690
